import Mathlib

/-!
Shallow embedding of the parcel tracker (`main.go`, `parcel.go`).

The program stores parcel records in a single SQLite table
`parcel (number INTEGER PRIMARY KEY, client, status, address, created_at)`.
We model the table state as a list of rows (in insertion order, which is the
order a full-table scan returns) together with the next auto-assigned rowid.
SQL statements are modelled by their effect on that state:

* `INSERT` appends a row whose `number` is the fresh rowid (`LastInsertId`);
* `SELECT ... WHERE number = ?` returns the first matching row
  (`sql.ErrNoRows` when none matches);
* `SELECT ... WHERE client = ?` returns the matching rows in table order;
* `UPDATE ... WHERE pred` rewrites every row satisfying `pred`;
* `DELETE ... WHERE pred` drops every row satisfying `pred`.

The storage engine itself executing a statement is assumed to succeed (its
failures are external I/O faults); for `Add`, whose error path the spec
describes in detail, a `DbFault` parameter additionally models the driver
call failing (`Exec` error, or `LastInsertId` error after a successful
insert).  `time.Now()` in `Register` is modelled as an explicit `now`
argument.
-/

/-- Status constant `ParcelStatusRegistered = "registered"` (main.go). -/
def ParcelStatusRegistered : String := "registered"

/-- Status constant `ParcelStatusSent = "sent"` (main.go). -/
def ParcelStatusSent : String := "sent"

/-- Status constant `ParcelStatusDelivered = "delivered"` (main.go). -/
def ParcelStatusDelivered : String := "delivered"

/-- The `Parcel` struct (main.go). -/
structure Parcel where
  Number : Int
  Client : Int
  Status : String
  Address : String
  CreatedAt : String
deriving DecidableEq, Repr

/-- State of the `parcel` table: rows in insertion order, plus the next
rowid that an `INSERT` will assign (SQLite `INTEGER PRIMARY KEY`). -/
structure DB where
  rows : List Parcel
  nextId : Int
deriving DecidableEq, Repr

/-- The freshly created table (after `CREATE TABLE`): no rows, first rowid 1. -/
def DB.empty : DB := ⟨[], 1⟩

/-- Errors surfaced by the store: `sql.ErrNoRows` from a row scan, or an
underlying storage failure. -/
inductive DbErr where
  | noRows
  | storage
deriving DecidableEq, Repr

/-- Outcome of the two driver calls made by `Add`: both succeed, the
`Exec` fails, or the `Exec` succeeds but `LastInsertId` fails. -/
inductive DbFault where
  | ok
  | execFail
  | lastIdFail
deriving DecidableEq, Repr

namespace ParcelStore

/-- `ParcelStore.Add` (parcel.go): `INSERT INTO parcel (client, status,
address, created_at) VALUES (?, ?, ?, ?)` followed by `LastInsertId`.
Returns the assigned id, the error, and the table state afterwards.
On an `Exec` error it returns `(0, err)` with the table untouched; on a
`LastInsertId` error the row was already inserted but `(0, err)` is
returned. -/
def Add (fault : DbFault) (db : DB) (p : Parcel) : Int × Option DbErr × DB :=
  match fault with
  | .execFail => (0, some .storage, db)
  | .lastIdFail =>
      (0, some .storage,
        { rows := db.rows ++ [{ p with Number := db.nextId }],
          nextId := db.nextId + 1 })
  | .ok =>
      (db.nextId, none,
        { rows := db.rows ++ [{ p with Number := db.nextId }],
          nextId := db.nextId + 1 })

/-- `ParcelStore.Get` (parcel.go): `SELECT ... FROM parcel WHERE number = ?`
scanned into a `Parcel`; `row.Scan` yields `sql.ErrNoRows` when no row
matches. -/
def Get (db : DB) (number : Int) : Except DbErr Parcel :=
  match db.rows.find? (fun r => r.Number == number) with
  | some p => .ok p
  | none => .error .noRows

/-- The result set of `SELECT ... FROM parcel WHERE client = ?`
(parcel.go, `GetByClient`): the matching rows in table order. -/
def queryByClient (db : DB) (client : Int) : List Parcel :=
  db.rows.filter (fun r => r.Client == client)

/-- `ParcelStore.GetByClient` (parcel.go): iterates the query's rows with
`rows.Next()`, appending each scanned parcel to the slice. -/
def GetByClient (db : DB) (client : Int) : Option DbErr × List Parcel :=
  (none, (queryByClient db client).foldl (fun acc p => acc ++ [p]) [])

/-- `ParcelStore.SetStatus` (parcel.go):
`UPDATE parcel SET status = ? WHERE number = ?`. -/
def SetStatus (db : DB) (number : Int) (status : String) : Option DbErr × DB :=
  (none,
    { db with
      rows := db.rows.map (fun r =>
        if r.Number == number then { r with Status := status } else r) })

/-- `ParcelStore.SetAddress` (parcel.go):
`UPDATE parcel SET address = ? WHERE number = ? AND status = ?` with
`ParcelStatusRegistered` bound to the status placeholder. -/
def SetAddress (db : DB) (number : Int) (address : String) : Option DbErr × DB :=
  (none,
    { db with
      rows := db.rows.map (fun r =>
        if r.Number == number && r.Status == ParcelStatusRegistered then
          { r with Address := address }
        else r) })

/-- `ParcelStore.Delete` (parcel.go):
`DELETE FROM parcel WHERE number = ? AND status = ?` with
`ParcelStatusRegistered` bound to the status placeholder. -/
def Delete (db : DB) (number : Int) : Option DbErr × DB :=
  (none,
    { db with
      rows := db.rows.filter (fun r =>
        !(r.Number == number && r.Status == ParcelStatusRegistered)) })

end ParcelStore

namespace ParcelService

/-- `ParcelService.Register` (main.go): builds a `Parcel` with
`Status = registered` and `CreatedAt = time.Now().UTC().Format(RFC3339)`
(modelled by the `now` argument), stores it via `Add`, and on success
copies the assigned id into `Number`.  On an `Add` error the parcel is
returned as constructed, its `Number` still the zero value. -/
def Register (fault : DbFault) (db : DB) (client : Int) (address : String)
    (now : String) : Parcel × Option DbErr × DB :=
  let parcel : Parcel :=
    { Number := 0, Client := client, Status := ParcelStatusRegistered,
      Address := address, CreatedAt := now }
  match ParcelStore.Add fault db parcel with
  | (_, some e, dbA) => (parcel, some e, dbA)
  | (id, none, dbA) => ({ parcel with Number := id }, none, dbA)

/-- `ParcelService.NextStatus` (main.go): fetches the parcel via `Get`
(propagating its error), then the `switch` on the current status:
`registered` picks `sent`, `sent` picks `delivered`, `delivered` returns
`nil` immediately; any other status leaves `nextStatus` at its zero value
`""`, which is then written through `SetStatus`. -/
def NextStatus (db : DB) (number : Int) : Option DbErr × DB :=
  match ParcelStore.Get db number with
  | .error e => (some e, db)
  | .ok parcel =>
      if parcel.Status == ParcelStatusRegistered then
        ParcelStore.SetStatus db number ParcelStatusSent
      else if parcel.Status == ParcelStatusSent then
        ParcelStore.SetStatus db number ParcelStatusDelivered
      else if parcel.Status == ParcelStatusDelivered then
        (none, db)
      else
        ParcelStore.SetStatus db number ""

/-- `ParcelService.ChangeAddress` (main.go): delegates to `SetAddress`. -/
def ChangeAddress (db : DB) (number : Int) (address : String) :
    Option DbErr × DB :=
  ParcelStore.SetAddress db number address

/-- `ParcelService.Delete` (main.go): delegates to the store `Delete`. -/
def Delete (db : DB) (number : Int) : Option DbErr × DB :=
  ParcelStore.Delete db number

end ParcelService

/-- A service-level operation, for reasoning about operation sequences.
`register` carries the clock reading and the driver-fault outcome of its
`Add` as explicit inputs. -/
inductive Op where
  | register (fault : DbFault) (client : Int) (address : String) (now : String)
  | nextStatus (number : Int)
  | changeAddress (number : Int) (address : String)
  | del (number : Int)
deriving DecidableEq, Repr

/-- The table state after one service operation. -/
def runOp (db : DB) (op : Op) : DB :=
  match op with
  | .register fault client address now =>
      (ParcelService.Register fault db client address now).2.2
  | .nextStatus number => (ParcelService.NextStatus db number).2
  | .changeAddress number address =>
      (ParcelService.ChangeAddress db number address).2
  | .del number => (ParcelService.Delete db number).2

/-- The table state after a sequence of service operations. -/
def run (db : DB) (ops : List Op) : DB := ops.foldl runOp db

/-- A status string the data model allows. -/
def ValidStatus (st : String) : Prop :=
  st = ParcelStatusRegistered ∨ st = ParcelStatusSent ∨
    st = ParcelStatusDelivered

instance (st : String) : Decidable (ValidStatus st) := by
  unfold ValidStatus; infer_instance

/-- Every stored row carries an allowed status. -/
def StatusOK (db : DB) : Prop := ∀ r ∈ db.rows, ValidStatus r.Status

/-- Well-formedness of the table state: the next rowid is at least 1 and
strictly above every stored rowid, and stored rowids are pairwise
distinct.  This holds for the freshly created table and is maintained by
every operation. -/
def DB.WF (db : DB) : Prop :=
  1 ≤ db.nextId ∧ (∀ r ∈ db.rows, r.Number < db.nextId) ∧
    db.rows.Pairwise (fun a b => a.Number ≠ b.Number)

/-- One permitted evolution of a parcel's status across a single
operation: unchanged, or one forward step of the chain
registered → sent → delivered. -/
def StatusStep (old new : String) : Prop :=
  new = old ∨ (old = ParcelStatusRegistered ∧ new = ParcelStatusSent) ∨
    (old = ParcelStatusSent ∧ new = ParcelStatusDelivered)

instance (db : DB) : Decidable (StatusOK db) := by
  unfold StatusOK; infer_instance

instance (db : DB) : Decidable db.WF := by
  unfold DB.WF; infer_instance

instance (a b : String) : Decidable (StatusStep a b) := by
  unfold StatusStep; infer_instance

/-! ### Helper lemmas about the table primitives -/

/-- The append loop of `GetByClient` just concatenates. -/
theorem foldl_push_eq (l acc : List Parcel) :
    l.foldl (fun a p => a ++ [p]) acc = acc ++ l := by
  induction l generalizing acc with
  | nil => simp
  | cons x xs ih => simp [List.foldl, ih]

/-- A successful `Get` is a successful `find?` on the rows. -/
theorem get_rows_eq (db : DB) (n : Int) (p : Parcel)
    (h : ParcelStore.Get db n = .ok p) :
    db.rows.find? (fun r => r.Number == n) = some p := by
  unfold ParcelStore.Get at h
  cases hf : db.rows.find? (fun r => r.Number == n) with
  | none => rw [hf] at h; cases h
  | some q => rw [hf] at h; cases h; rfl

/-- A parcel returned by `Get` is a stored row with the requested number. -/
theorem get_mem (db : DB) (n : Int) (p : Parcel)
    (h : ParcelStore.Get db n = .ok p) : p ∈ db.rows ∧ p.Number = n := by
  have hf := get_rows_eq db n p h
  refine ⟨List.mem_of_find?_eq_some hf, ?_⟩
  have := List.find?_some hf
  simpa using this

/-- A failing `Get` means no row has the requested number. -/
theorem get_err (db : DB) (n : Int)
    (h : ParcelStore.Get db n = .error .noRows) :
    ∀ r ∈ db.rows, r.Number ≠ n := by
  unfold ParcelStore.Get at h
  cases hf : db.rows.find? (fun r => r.Number == n) with
  | none =>
      intro r hr hrn
      have := List.find?_eq_none.mp hf r hr
      simp [hrn] at this
  | some q => rw [hf] at h; cases h

/-- Conversely, if no row has the requested number, `Get` fails. -/
theorem get_none (db : DB) (n : Int)
    (h : ∀ r ∈ db.rows, r.Number ≠ n) :
    ParcelStore.Get db n = .error .noRows := by
  unfold ParcelStore.Get
  have : db.rows.find? (fun r => r.Number == n) = none := by
    apply List.find?_eq_none.mpr
    intro r hr
    simp [h r hr]
  rw [this]

/-- Under pairwise-distinct numbers, the row `find?` returns is the only
row with that number. -/
theorem find?_unique (l : List Parcel)
    (hpw : l.Pairwise (fun a b => a.Number ≠ b.Number)) (n : Int) (p : Parcel)
    (hf : l.find? (fun r => r.Number == n) = some p) :
    ∀ r ∈ l, r.Number = n → r = p := by
  induction l with
  | nil => intro r hr; cases hr
  | cons a as ih =>
      rw [List.pairwise_cons] at hpw
      intro r hr hrn
      by_cases ha : a.Number = n
      · have hp : p = a := by
          rw [List.find?_cons_of_pos _ (by simp [ha])] at hf
          exact (Option.some.injEq _ _).mp hf.symm
        rcases List.mem_cons.mp hr with h1 | h2
        · rw [h1, hp]
        · exact absurd (hrn.trans ha.symm) (hpw.1 r h2).symm
      · rw [List.find?_cons_of_neg _ (by simp [ha])] at hf
        rcases List.mem_cons.mp hr with h1 | h2
        · exact absurd (h1 ▸ hrn) ha
        · exact ih hpw.2 hf r h2 hrn

/-- `find?` over a map that preserves `Number` is the map of `find?`. -/
theorem find?_map_number (f : Parcel → Parcel)
    (hf : ∀ r, (f r).Number = r.Number) (l : List Parcel) (n : Int) :
    (l.map f).find? (fun r => r.Number == n) =
      (l.find? (fun r => r.Number == n)).map f := by
  induction l with
  | nil => rfl
  | cons a as ih =>
      by_cases ha : a.Number = n
      · rw [List.map_cons, List.find?_cons_of_pos _ (by simp [hf a, ha]),
          List.find?_cons_of_pos _ (by simp [ha])]
        rfl
      · rw [List.map_cons, List.find?_cons_of_neg _ (by simp [hf a, ha]),
          List.find?_cons_of_neg _ (by simp [ha]), ih]

/-- Complete description of `Get` after `SetStatus`: the row with the
updated number is seen with the new status, every other lookup is
unchanged. -/
theorem get_setStatus_eq (db : DB) (n : Int) (st : String) (m : Int) :
    ParcelStore.Get (ParcelStore.SetStatus db n st).2 m =
      match ParcelStore.Get db m with
      | .ok p =>
          .ok (if p.Number == n then { p with Status := st } else p)
      | .error e => .error e := by
  unfold ParcelStore.Get ParcelStore.SetStatus
  rw [find?_map_number _ (fun r => by by_cases hr : r.Number == n <;> simp [hr])]
  cases db.rows.find? (fun r => r.Number == m) <;> simp

/-- Complete description of `Get` after `SetAddress`: the row matching
both the number and the `registered` guard is seen with the new address,
every other lookup is unchanged. -/
theorem get_setAddress_eq (db : DB) (n : Int) (a : String) (m : Int) :
    ParcelStore.Get (ParcelStore.SetAddress db n a).2 m =
      match ParcelStore.Get db m with
      | .ok p =>
          .ok (if p.Number == n && p.Status == ParcelStatusRegistered then
                 { p with Address := a }
               else p)
      | .error e => .error e := by
  unfold ParcelStore.Get ParcelStore.SetAddress
  rw [find?_map_number _ (fun r => by
    by_cases hr : r.Number == n && r.Status == ParcelStatusRegistered <;>
      simp [hr])]
  cases db.rows.find? (fun r => r.Number == m) <;> simp

/-- `SetStatus` on an absent number leaves the table untouched. -/
theorem setStatus_no_row (db : DB) (n : Int) (st : String)
    (h : ∀ r ∈ db.rows, r.Number ≠ n) :
    (ParcelStore.SetStatus db n st).2 = db := by
  unfold ParcelStore.SetStatus
  have hmap : db.rows.map (fun r =>
      if r.Number == n then { r with Status := st } else r) = db.rows := by
    rw [List.map_congr_left (g := id) (fun r hr => by simp [h r hr]),
      List.map_id]
  rw [hmap]

/-- `SetAddress` leaves the table untouched when the only row with the
requested number is not `registered`. -/
theorem setAddress_no_match (db : DB) (n : Int) (a : String) (p : Parcel)
    (hpw : db.rows.Pairwise (fun x y => x.Number ≠ y.Number))
    (h : ParcelStore.Get db n = .ok p)
    (hst : p.Status ≠ ParcelStatusRegistered) :
    ParcelStore.SetAddress db n a = (none, db) := by
  unfold ParcelStore.SetAddress
  have hmap : db.rows.map (fun r =>
      if r.Number == n && r.Status == ParcelStatusRegistered then
        { r with Address := a }
      else r) = db.rows := by
    refine (List.map_congr_left (g := id) (fun r hr => ?_)).trans
      (List.map_id _)
    by_cases hrn : r.Number = n
    · have hrp : r = p :=
        find?_unique db.rows hpw n p (get_rows_eq db n p h) r hr hrn
      simp [hrp, hst]
    · simp [hrn]
  rw [hmap]

/-- `Delete` leaves the table untouched when the only row with the
requested number is not `registered`. -/
theorem delete_no_match (db : DB) (n : Int) (p : Parcel)
    (hpw : db.rows.Pairwise (fun x y => x.Number ≠ y.Number))
    (h : ParcelStore.Get db n = .ok p)
    (hst : p.Status ≠ ParcelStatusRegistered) :
    ParcelStore.Delete db n = (none, db) := by
  unfold ParcelStore.Delete
  have hfil : db.rows.filter (fun r =>
      !(r.Number == n && r.Status == ParcelStatusRegistered)) = db.rows := by
    apply List.filter_eq_self.mpr
    intro r hr
    by_cases hrn : r.Number = n
    · have hrp : r = p :=
        find?_unique db.rows hpw n p (get_rows_eq db n p h) r hr hrn
      simp [hrp, hst]
    · simp [hrn]
  rw [hfil]

/-- After deleting a `registered` row, no row with its number remains. -/
theorem delete_removes (db : DB) (n : Int) (p : Parcel)
    (hpw : db.rows.Pairwise (fun x y => x.Number ≠ y.Number))
    (h : ParcelStore.Get db n = .ok p)
    (hst : p.Status = ParcelStatusRegistered) :
    ParcelStore.Get (ParcelStore.Delete db n).2 n = .error .noRows := by
  apply get_none
  intro r hr hrn
  have hmem : r ∈ db.rows := List.mem_of_mem_filter hr
  have hrp : r = p :=
    find?_unique db.rows hpw n p (get_rows_eq db n p h) r hmem hrn
  have hpred := List.of_mem_filter hr
  rw [hrp] at hpred
  simp [(get_mem db n p h).2, hst] at hpred

/-- In a well-formed table no stored row carries the next rowid. -/
theorem add_fresh (db : DB) (hwf : db.WF) :
    db.rows.find? (fun r => r.Number == db.nextId) = none := by
  apply List.find?_eq_none.mpr
  intro r hr
  have := hwf.2.1 r hr
  simp only [beq_iff_eq]
  omega

/-- After a successful `Add`, looking up the returned id yields the
inserted parcel: the argument with its `Number` replaced by the id. -/
theorem add_ok_get (db : DB) (p : Parcel) (hwf : db.WF) :
    ParcelStore.Get (ParcelStore.Add .ok db p).2.2 (ParcelStore.Add .ok db p).1 =
      .ok { p with Number := (ParcelStore.Add .ok db p).1 } := by
  unfold ParcelStore.Get ParcelStore.Add
  rw [List.find?_append, add_fresh db hwf]
  simp

/-! ### The claims -/

/-- C1: for every parcel `P` and well-formed table, `Get` applied to the
identity returned by `Add(P)` returns a parcel equal to `P` in the
client, status, address and created_at fields, whose number is the
store-assigned identity, and that identity is non-zero. -/
theorem add_get_roundtrip (db : DB) (p : Parcel) (hwf : db.WF) :
    (ParcelStore.Add .ok db p).1 ≠ 0 ∧
    (ParcelStore.Add .ok db p).2.1 = none ∧
    ParcelStore.Get (ParcelStore.Add .ok db p).2.2 (ParcelStore.Add .ok db p).1 =
      .ok { Number := (ParcelStore.Add .ok db p).1, Client := p.Client,
            Status := p.Status, Address := p.Address,
            CreatedAt := p.CreatedAt } := by
  have h1 := hwf.1
  refine ⟨?_, rfl, add_ok_get db p hwf⟩
  show db.nextId ≠ 0
  omega

/-- Witness for C1 at the empty table and a concrete parcel. -/
theorem add_get_roundtrip_witness :
    (ParcelStore.Add .ok DB.empty ⟨0, 7, "registered", "addr", "t0"⟩).1 ≠ 0 ∧
    (ParcelStore.Add .ok DB.empty ⟨0, 7, "registered", "addr", "t0"⟩).2.1 = none ∧
    ParcelStore.Get
        (ParcelStore.Add .ok DB.empty ⟨0, 7, "registered", "addr", "t0"⟩).2.2
        (ParcelStore.Add .ok DB.empty ⟨0, 7, "registered", "addr", "t0"⟩).1 =
      .ok { Number := (ParcelStore.Add .ok DB.empty ⟨0, 7, "registered", "addr", "t0"⟩).1,
            Client := 7, Status := "registered", Address := "addr",
            CreatedAt := "t0" } :=
  add_get_roundtrip DB.empty ⟨0, 7, "registered", "addr", "t0"⟩ (by decide)

/-- C6: `SetStatus` never errors, unconditionally overwrites the status
of the row with the given identity whatever its current status, and on a
missing identity changes nothing. -/
theorem setStatus_unconditional (db : DB) (n : Int) (st : String) :
    (ParcelStore.SetStatus db n st).1 = none ∧
    (∀ p, ParcelStore.Get db n = .ok p →
      ParcelStore.Get (ParcelStore.SetStatus db n st).2 n =
        .ok { p with Status := st }) ∧
    (ParcelStore.Get db n = .error .noRows →
      (ParcelStore.SetStatus db n st).2 = db) := by
  refine ⟨rfl, ?_, ?_⟩
  · intro p hget
    rw [get_setStatus_eq, hget]
    simp [(get_mem db n p hget).2]
  · intro h
    exact setStatus_no_row db n st (get_err db n h)

/-- Witness for C6: overwriting a `sent` row's status on a one-row table,
and the no-op on a missing identity. -/
theorem setStatus_unconditional_witness :
    ParcelStore.Get
        (ParcelStore.SetStatus ⟨[⟨1, 5, "sent", "a", "t"⟩], 2⟩ 1 "delivered").2 1 =
      .ok ⟨1, 5, "delivered", "a", "t"⟩ ∧
    (ParcelStore.SetStatus ⟨[⟨1, 5, "sent", "a", "t"⟩], 2⟩ 9 "delivered").2 =
      ⟨[⟨1, 5, "sent", "a", "t"⟩], 2⟩ :=
  ⟨(setStatus_unconditional ⟨[⟨1, 5, "sent", "a", "t"⟩], 2⟩ 1 "delivered").2.1
      ⟨1, 5, "sent", "a", "t"⟩ rfl,
    (setStatus_unconditional ⟨[⟨1, 5, "sent", "a", "t"⟩], 2⟩ 9 "delivered").2.2 rfl⟩

/-- C7: `GetByClient` never errors, returns exactly the stored parcels
whose client field equals the requested id, and returns the empty
collection when no stored parcel matches. -/
theorem getByClient_exact (db : DB) (c : Int) :
    (ParcelStore.GetByClient db c).1 = none ∧
    (∀ p, p ∈ (ParcelStore.GetByClient db c).2 ↔
      p ∈ db.rows ∧ p.Client = c) ∧
    ((∀ r ∈ db.rows, r.Client ≠ c) → (ParcelStore.GetByClient db c).2 = []) := by
  have hlist : (ParcelStore.GetByClient db c).2 =
      db.rows.filter (fun r => r.Client == c) := by
    unfold ParcelStore.GetByClient ParcelStore.queryByClient
    rw [foldl_push_eq]
    simp
  refine ⟨rfl, ?_, ?_⟩
  · intro p
    rw [hlist]
    simp [List.mem_filter]
  · intro h
    rw [hlist]
    apply List.filter_eq_nil_iff.mpr
    intro r hr
    simp [h r hr]

/-- Witness for C7 on a two-client table. -/
theorem getByClient_exact_witness :
    (⟨1, 5, "sent", "a", "t"⟩ ∈
        (ParcelStore.GetByClient ⟨[⟨1, 5, "sent", "a", "t"⟩, ⟨2, 6, "sent", "b", "t"⟩], 3⟩ 5).2 ↔
      ⟨1, 5, "sent", "a", "t"⟩ ∈
          ([⟨1, 5, "sent", "a", "t"⟩, ⟨2, 6, "sent", "b", "t"⟩] : List Parcel) ∧
        (5 : Int) = 5) ∧
    (ParcelStore.GetByClient ⟨[⟨1, 5, "sent", "a", "t"⟩, ⟨2, 6, "sent", "b", "t"⟩], 3⟩ 9).2 = [] :=
  ⟨(getByClient_exact ⟨[⟨1, 5, "sent", "a", "t"⟩, ⟨2, 6, "sent", "b", "t"⟩], 3⟩ 5).2.1
      ⟨1, 5, "sent", "a", "t"⟩,
    (getByClient_exact ⟨[⟨1, 5, "sent", "a", "t"⟩, ⟨2, 6, "sent", "b", "t"⟩], 3⟩ 9).2.2
      (by decide)⟩

/-- C9: on a well-formed table a successful `Add` assigns a fresh
identity distinct from every stored one (so identities stay pairwise
distinct), persists all four payload fields under that identity, and
returns it non-zero; when the underlying write or the identity retrieval
fails it returns identity 0 with a storage error. -/
theorem add_spec (fault : DbFault) (db : DB) (p : Parcel) (hwf : db.WF) :
    (fault = .ok →
      (ParcelStore.Add .ok db p).2.1 = none ∧
      (∀ q ∈ db.rows, q.Number ≠ (ParcelStore.Add .ok db p).1) ∧
      (ParcelStore.Add .ok db p).2.2.rows.Pairwise
        (fun x y => x.Number ≠ y.Number) ∧
      { Number := (ParcelStore.Add .ok db p).1, Client := p.Client,
        Status := p.Status, Address := p.Address, CreatedAt := p.CreatedAt } ∈
        (ParcelStore.Add .ok db p).2.2.rows ∧
      (ParcelStore.Add .ok db p).1 ≠ 0) ∧
    (fault ≠ .ok →
      (ParcelStore.Add fault db p).1 = 0 ∧
      (ParcelStore.Add fault db p).2.1 = some .storage) := by
  obtain ⟨h1, h2, h3⟩ := hwf
  constructor
  · intro _
    refine ⟨rfl, ?_, ?_, ?_, ?_⟩
    · intro q hq
      have := h2 q hq
      show q.Number ≠ db.nextId
      omega
    · show (db.rows ++ [{ p with Number := db.nextId }]).Pairwise
        (fun x y : Parcel => x.Number ≠ y.Number)
      rw [List.pairwise_append]
      refine ⟨h3, by simp, ?_⟩
      intro x hx y hy
      rw [List.mem_singleton.mp hy]
      have := h2 x hx
      show x.Number ≠ db.nextId
      omega
    · exact List.mem_append_right _ (List.mem_singleton.mpr rfl)
    · show db.nextId ≠ 0
      omega
  · intro hne
    cases fault with
    | ok => exact absurd rfl hne
    | execFail => exact ⟨rfl, rfl⟩
    | lastIdFail => exact ⟨rfl, rfl⟩

/-- Witness for C9 at a concrete one-row table, both fault cases. -/
theorem add_spec_witness :
    ((ParcelStore.Add .ok ⟨[⟨1, 5, "sent", "a", "t"⟩], 2⟩ ⟨0, 7, "registered", "b", "u"⟩).1 ≠ 0 ∧
      { Number := (ParcelStore.Add .ok ⟨[⟨1, 5, "sent", "a", "t"⟩], 2⟩ ⟨0, 7, "registered", "b", "u"⟩).1,
        Client := (7 : Int), Status := "registered", Address := "b",
        CreatedAt := "u" } ∈
        (ParcelStore.Add .ok ⟨[⟨1, 5, "sent", "a", "t"⟩], 2⟩ ⟨0, 7, "registered", "b", "u"⟩).2.2.rows) ∧
    ((ParcelStore.Add .execFail ⟨[⟨1, 5, "sent", "a", "t"⟩], 2⟩ ⟨0, 7, "registered", "b", "u"⟩).1 = 0 ∧
      (ParcelStore.Add .execFail ⟨[⟨1, 5, "sent", "a", "t"⟩], 2⟩ ⟨0, 7, "registered", "b", "u"⟩).2.1 =
        some .storage) :=
  ⟨⟨((add_spec .ok ⟨[⟨1, 5, "sent", "a", "t"⟩], 2⟩ ⟨0, 7, "registered", "b", "u"⟩
        (by decide)).1 rfl).2.2.2.2,
    ((add_spec .ok ⟨[⟨1, 5, "sent", "a", "t"⟩], 2⟩ ⟨0, 7, "registered", "b", "u"⟩
        (by decide)).1 rfl).2.2.2.1⟩,
    (add_spec .execFail ⟨[⟨1, 5, "sent", "a", "t"⟩], 2⟩ ⟨0, 7, "registered", "b", "u"⟩
        (by decide)).2 (by decide)⟩

/-- C2: `Delete` removes the stored row only when its status is
`registered`: on a `sent` or `delivered` row it returns no error and
leaves the whole table unchanged, and after deleting a `registered` row
a subsequent `Get` on that number fails with the not-found error. -/
theorem delete_guard (db : DB) (n : Int) (p : Parcel) (hwf : db.WF)
    (hget : ParcelStore.Get db n = .ok p) :
    ((p.Status = ParcelStatusSent ∨ p.Status = ParcelStatusDelivered) →
      ParcelStore.Delete db n = (none, db)) ∧
    (p.Status = ParcelStatusRegistered →
      (ParcelStore.Delete db n).1 = none ∧
      ParcelStore.Get (ParcelStore.Delete db n).2 n = .error .noRows) := by
  have hpw := hwf.2.2
  constructor
  · intro hst
    apply delete_no_match db n p hpw hget
    rcases hst with h | h <;> rw [h] <;> decide
  · intro hst
    exact ⟨rfl, delete_removes db n p hpw hget hst⟩

/-- Witness for C2: the no-op on a `sent` row and the removal of a
`registered` row, on concrete one-row tables. -/
theorem delete_guard_witness :
    ParcelStore.Delete ⟨[⟨1, 5, "sent", "a", "t"⟩], 2⟩ 1 =
      (none, ⟨[⟨1, 5, "sent", "a", "t"⟩], 2⟩) ∧
    ParcelStore.Get
        (ParcelStore.Delete ⟨[⟨1, 5, "registered", "a", "t"⟩], 2⟩ 1).2 1 =
      .error .noRows :=
  ⟨(delete_guard ⟨[⟨1, 5, "sent", "a", "t"⟩], 2⟩ 1 ⟨1, 5, "sent", "a", "t"⟩
      (by decide) rfl).1 (Or.inl rfl),
    ((delete_guard ⟨[⟨1, 5, "registered", "a", "t"⟩], 2⟩ 1
        ⟨1, 5, "registered", "a", "t"⟩ (by decide) rfl).2 rfl).2⟩

/-- C3: `SetAddress` returns no error; when the row with the given
number has status `registered` it is seen with the new address and the
table is rewritten only at that row (all other fields and rows, and the
id counter, untouched); when that row's status is `sent` or `delivered`
the table is left entirely unchanged. -/
theorem setAddress_guard (db : DB) (n : Int) (a : String) (p : Parcel)
    (hwf : db.WF) (hget : ParcelStore.Get db n = .ok p) :
    (ParcelStore.SetAddress db n a).1 = none ∧
    (p.Status = ParcelStatusRegistered →
      ParcelStore.Get (ParcelStore.SetAddress db n a).2 n =
        .ok { p with Address := a } ∧
      (ParcelStore.SetAddress db n a).2.rows =
        db.rows.map (fun r =>
          if r.Number == n then { r with Address := a } else r) ∧
      (ParcelStore.SetAddress db n a).2.nextId = db.nextId) ∧
    ((p.Status = ParcelStatusSent ∨ p.Status = ParcelStatusDelivered) →
      ParcelStore.SetAddress db n a = (none, db)) := by
  have hpw := hwf.2.2
  refine ⟨rfl, ?_, ?_⟩
  · intro hst
    refine ⟨?_, ?_, rfl⟩
    · rw [get_setAddress_eq, hget]
      simp [(get_mem db n p hget).2, hst]
    · show db.rows.map _ = db.rows.map _
      apply List.map_congr_left
      intro r hr
      by_cases hrn : r.Number = n
      · have hrp : r = p :=
          find?_unique db.rows hpw n p (get_rows_eq db n p hget) r hr hrn
        simp [hrp, hst, (get_mem db n p hget).2]
      · simp [hrn]
  · intro hcase
    apply setAddress_no_match db n a p hpw hget
    rcases hcase with h | h <;> rw [h] <;> decide

/-- Witness for C3: updating the address of a `registered` row and the
no-op on a `sent` row, on concrete one-row tables. -/
theorem setAddress_guard_witness :
    ParcelStore.Get
        (ParcelStore.SetAddress ⟨[⟨1, 5, "registered", "a", "t"⟩], 2⟩ 1 "b").2 1 =
      .ok ⟨1, 5, "registered", "b", "t"⟩ ∧
    ParcelStore.SetAddress ⟨[⟨1, 5, "sent", "a", "t"⟩], 2⟩ 1 "b" =
      (none, ⟨[⟨1, 5, "sent", "a", "t"⟩], 2⟩) :=
  ⟨((setAddress_guard ⟨[⟨1, 5, "registered", "a", "t"⟩], 2⟩ 1 "b"
        ⟨1, 5, "registered", "a", "t"⟩ (by decide) rfl).2.1 rfl).1,
    (setAddress_guard ⟨[⟨1, 5, "sent", "a", "t"⟩], 2⟩ 1 "b"
        ⟨1, 5, "sent", "a", "t"⟩ (by decide) rfl).2.2 (Or.inl rfl)⟩

/-- C4: `NextStatus` on a stored `registered` parcel leaves it stored
with status `sent`; on a `sent` parcel, with status `delivered`; on a
`delivered` parcel it returns success and leaves the table untouched. -/
theorem nextStatus_chain (db : DB) (n : Int) (p : Parcel)
    (hget : ParcelStore.Get db n = .ok p) :
    (p.Status = ParcelStatusRegistered →
      (ParcelService.NextStatus db n).1 = none ∧
      ParcelStore.Get (ParcelService.NextStatus db n).2 n =
        .ok { p with Status := ParcelStatusSent }) ∧
    (p.Status = ParcelStatusSent →
      (ParcelService.NextStatus db n).1 = none ∧
      ParcelStore.Get (ParcelService.NextStatus db n).2 n =
        .ok { p with Status := ParcelStatusDelivered }) ∧
    (p.Status = ParcelStatusDelivered →
      ParcelService.NextStatus db n = (none, db)) := by
  have hpn := (get_mem db n p hget).2
  refine ⟨?_, ?_, ?_⟩ <;> intro hst
  · have hdb : ParcelService.NextStatus db n =
        ParcelStore.SetStatus db n ParcelStatusSent := by
      simp [ParcelService.NextStatus, hget, hst, ParcelStatusRegistered,
        ParcelStatusSent, ParcelStatusDelivered]
    rw [hdb]
    refine ⟨rfl, ?_⟩
    rw [get_setStatus_eq, hget]
    simp [hpn]
  · have hdb : ParcelService.NextStatus db n =
        ParcelStore.SetStatus db n ParcelStatusDelivered := by
      simp [ParcelService.NextStatus, hget, hst, ParcelStatusRegistered,
        ParcelStatusSent, ParcelStatusDelivered]
    rw [hdb]
    refine ⟨rfl, ?_⟩
    rw [get_setStatus_eq, hget]
    simp [hpn]
  · simp [ParcelService.NextStatus, hget, hst, ParcelStatusRegistered,
        ParcelStatusSent, ParcelStatusDelivered]

/-- Witness for C4: one `NextStatus` step on a concrete `registered` row
and the no-op on a concrete `delivered` row. -/
theorem nextStatus_chain_witness :
    ParcelStore.Get
        (ParcelService.NextStatus ⟨[⟨1, 5, "registered", "a", "t"⟩], 2⟩ 1).2 1 =
      .ok ⟨1, 5, "sent", "a", "t"⟩ ∧
    ParcelService.NextStatus ⟨[⟨1, 5, "delivered", "a", "t"⟩], 2⟩ 1 =
      (none, ⟨[⟨1, 5, "delivered", "a", "t"⟩], 2⟩) :=
  ⟨((nextStatus_chain ⟨[⟨1, 5, "registered", "a", "t"⟩], 2⟩ 1
        ⟨1, 5, "registered", "a", "t"⟩ rfl).1 rfl).2,
    (nextStatus_chain ⟨[⟨1, 5, "delivered", "a", "t"⟩], 2⟩ 1
        ⟨1, 5, "delivered", "a", "t"⟩ rfl).2.2 rfl⟩

/-- C10: `NextStatus` on a stored parcel whose status is none of
`registered`, `sent`, `delivered` returns no error and overwrites the
stored status with the empty string (the switch has no default branch,
so the zero-valued `nextStatus` is written through `SetStatus`). -/
theorem nextStatus_default (db : DB) (n : Int) (p : Parcel)
    (hget : ParcelStore.Get db n = .ok p)
    (h1 : p.Status ≠ ParcelStatusRegistered)
    (h2 : p.Status ≠ ParcelStatusSent)
    (h3 : p.Status ≠ ParcelStatusDelivered) :
    (ParcelService.NextStatus db n).1 = none ∧
    ParcelStore.Get (ParcelService.NextStatus db n).2 n =
      .ok { p with Status := "" } := by
  have e1 : (p.Status == ParcelStatusRegistered) = false := by simp [h1]
  have e2 : (p.Status == ParcelStatusSent) = false := by simp [h2]
  have e3 : (p.Status == ParcelStatusDelivered) = false := by simp [h3]
  have hdb : ParcelService.NextStatus db n = ParcelStore.SetStatus db n "" := by
    simp [ParcelService.NextStatus, hget, e1, e2, e3]
  rw [hdb]
  refine ⟨rfl, ?_⟩
  rw [get_setStatus_eq, hget]
  simp [(get_mem db n p hget).2]

/-- Witness for C10 on a concrete row with an out-of-vocabulary status. -/
theorem nextStatus_default_witness :
    (ParcelService.NextStatus ⟨[⟨1, 5, "weird", "a", "t"⟩], 2⟩ 1).1 = none ∧
    ParcelStore.Get
        (ParcelService.NextStatus ⟨[⟨1, 5, "weird", "a", "t"⟩], 2⟩ 1).2 1 =
      .ok ⟨1, 5, "", "a", "t"⟩ :=
  nextStatus_default ⟨[⟨1, 5, "weird", "a", "t"⟩], 2⟩ 1 ⟨1, 5, "weird", "a", "t"⟩
    rfl (by decide) (by decide) (by decide)

/-- C8: on a well-formed table, `Register` builds a parcel with status
`registered` and the current clock reading as `created_at`, persists it
through `Add`, and returns it fully populated with the non-zero assigned
identity; when `Add` fails the error is propagated and the returned
parcel's number is still the zero value. -/
theorem register_spec (fault : DbFault) (db : DB) (c : Int) (a now : String)
    (hwf : db.WF) :
    (fault = .ok →
      (ParcelService.Register .ok db c a now).2.1 = none ∧
      (ParcelService.Register .ok db c a now).1.Status = ParcelStatusRegistered ∧
      (ParcelService.Register .ok db c a now).1.CreatedAt = now ∧
      (ParcelService.Register .ok db c a now).1.Client = c ∧
      (ParcelService.Register .ok db c a now).1.Address = a ∧
      (ParcelService.Register .ok db c a now).1.Number ≠ 0 ∧
      ParcelStore.Get (ParcelService.Register .ok db c a now).2.2
          (ParcelService.Register .ok db c a now).1.Number =
        .ok (ParcelService.Register .ok db c a now).1) ∧
    (fault ≠ .ok →
      (ParcelService.Register fault db c a now).2.1 = some .storage ∧
      (ParcelService.Register fault db c a now).1.Number = 0) := by
  constructor
  · intro _
    have h1 := hwf.1
    refine ⟨rfl, rfl, rfl, rfl, rfl, ?_, ?_⟩
    · show db.nextId ≠ 0
      omega
    · exact add_ok_get db _ hwf
  · intro hne
    cases fault with
    | ok => exact absurd rfl hne
    | execFail => exact ⟨rfl, rfl⟩
    | lastIdFail => exact ⟨rfl, rfl⟩

/-- Witness for C8 at the empty table, both fault cases. -/
theorem register_spec_witness :
    ((ParcelService.Register .ok DB.empty 7 "addr" "t0").1.Status =
        ParcelStatusRegistered ∧
      (ParcelService.Register .ok DB.empty 7 "addr" "t0").1.Number ≠ 0 ∧
      ParcelStore.Get (ParcelService.Register .ok DB.empty 7 "addr" "t0").2.2
          (ParcelService.Register .ok DB.empty 7 "addr" "t0").1.Number =
        .ok (ParcelService.Register .ok DB.empty 7 "addr" "t0").1) ∧
    ((ParcelService.Register .execFail DB.empty 7 "addr" "t0").2.1 =
        some .storage ∧
      (ParcelService.Register .execFail DB.empty 7 "addr" "t0").1.Number = 0) :=
  ⟨⟨((register_spec .ok DB.empty 7 "addr" "t0" (by decide)).1 rfl).2.1,
    ((register_spec .ok DB.empty 7 "addr" "t0" (by decide)).1 rfl).2.2.2.2.2.1,
    ((register_spec .ok DB.empty 7 "addr" "t0" (by decide)).1 rfl).2.2.2.2.2.2⟩,
    (register_spec .execFail DB.empty 7 "addr" "t0" (by decide)).2 (by decide)⟩

/-! ### Preservation of the table invariants by the service operations -/

/-- Rewriting rows without touching their numbers preserves `WF`. -/
theorem wf_map (db : DB) (f : Parcel → Parcel)
    (hf : ∀ r, (f r).Number = r.Number) (hwf : db.WF) :
    (DB.mk (db.rows.map f) db.nextId).WF := by
  obtain ⟨h1, h2, h3⟩ := hwf
  refine ⟨h1, ?_, ?_⟩
  · intro r hr
    obtain ⟨q, hq, rfl⟩ := List.mem_map.mp hr
    rw [hf q]
    exact h2 q hq
  · rw [List.pairwise_map]
    exact h3.imp (fun h => by rwa [hf, hf])

/-- `SetStatus` preserves `WF`. -/
theorem wf_setStatus (db : DB) (n : Int) (st : String) (hwf : db.WF) :
    (ParcelStore.SetStatus db n st).2.WF :=
  wf_map db _ (fun r => by by_cases h : (r.Number == n) = true <;> simp [h]) hwf

/-- `SetAddress` preserves `WF`. -/
theorem wf_setAddress (db : DB) (n : Int) (a : String) (hwf : db.WF) :
    (ParcelStore.SetAddress db n a).2.WF :=
  wf_map db _
    (fun r => by
      by_cases h : (r.Number == n && r.Status == ParcelStatusRegistered) = true <;>
        simp [h])
    hwf

/-- `Delete` preserves `WF`. -/
theorem wf_delete_op (db : DB) (n : Int) (hwf : db.WF) :
    (ParcelStore.Delete db n).2.WF := by
  obtain ⟨h1, h2, h3⟩ := hwf
  refine ⟨h1, ?_, ?_⟩
  · intro r hr
    exact h2 r (List.mem_of_mem_filter hr)
  · exact h3.sublist (List.filter_sublist _)

/-- `Add` preserves `WF` under every fault outcome. -/
theorem wf_add (fault : DbFault) (db : DB) (p : Parcel) (hwf : db.WF) :
    (ParcelStore.Add fault db p).2.2.WF := by
  obtain ⟨h1, h2, h3⟩ := hwf
  have hnew :
      (DB.mk (db.rows ++ [{ p with Number := db.nextId }]) (db.nextId + 1)).WF := by
    refine ⟨show (1 : Int) ≤ db.nextId + 1 by omega, ?_, ?_⟩
    · intro r hr
      show r.Number < db.nextId + 1
      rcases List.mem_append.mp hr with h | h
      · have := h2 r h
        omega
      · rw [List.mem_singleton.mp h]
        show db.nextId < db.nextId + 1
        omega
    · rw [List.pairwise_append]
      refine ⟨h3, by simp, ?_⟩
      intro x hx y hy
      rw [List.mem_singleton.mp hy]
      have := h2 x hx
      show x.Number ≠ db.nextId
      omega
  cases fault with
  | ok => exact hnew
  | execFail => exact ⟨h1, h2, h3⟩
  | lastIdFail => exact hnew

/-- The table state after `Register` is the table state after its `Add`,
whatever the fault outcome. -/
theorem register_db_eq (fault : DbFault) (db : DB) (c : Int) (a now : String) :
    (ParcelService.Register fault db c a now).2.2 =
      (ParcelStore.Add fault db
        { Number := 0, Client := c, Status := ParcelStatusRegistered,
          Address := a, CreatedAt := now }).2.2 := by
  cases fault <;> rfl

/-- The table after `NextStatus` is either unchanged or a `SetStatus`
with one of the three values the switch can write. -/
theorem nextStatus_db_cases (db : DB) (m : Int) :
    (ParcelService.NextStatus db m).2 = db ∨
    ∃ st, (ParcelService.NextStatus db m).2 = (ParcelStore.SetStatus db m st).2 ∧
      (st = ParcelStatusSent ∨ st = ParcelStatusDelivered ∨ st = "") := by
  unfold ParcelService.NextStatus
  cases hget : ParcelStore.Get db m with
  | error e => exact Or.inl rfl
  | ok p =>
      by_cases c1 : (p.Status == ParcelStatusRegistered) = true
      · refine Or.inr ⟨ParcelStatusSent, ?_, Or.inl rfl⟩
        simp [c1]
      · by_cases c2 : (p.Status == ParcelStatusSent) = true
        · refine Or.inr ⟨ParcelStatusDelivered, ?_, Or.inr (Or.inl rfl)⟩
          simp [c1, c2]
        · by_cases c3 : (p.Status == ParcelStatusDelivered) = true
          · refine Or.inl ?_
            simp [c1, c2, c3]
          · refine Or.inr ⟨"", ?_, Or.inr (Or.inr rfl)⟩
            simp [c1, c2, c3]

/-- Every service operation preserves `WF`. -/
theorem wf_runOp (db : DB) (op : Op) (hwf : db.WF) : (runOp db op).WF := by
  cases op with
  | register fault c a now =>
      show (ParcelService.Register fault db c a now).2.2.WF
      rw [register_db_eq]
      exact wf_add fault db _ hwf
  | nextStatus m =>
      show (ParcelService.NextStatus db m).2.WF
      rcases nextStatus_db_cases db m with h | ⟨st, h, -⟩
      · rw [h]; exact hwf
      · rw [h]; exact wf_setStatus db m st hwf
  | changeAddress m a => exact wf_setAddress db m a hwf
  | del m => exact wf_delete_op db m hwf

/-- `SetStatus` with an allowed status preserves `StatusOK`. -/
theorem statusOK_setStatus (db : DB) (m : Int) (st : String)
    (hok : StatusOK db) (hst : ValidStatus st) :
    StatusOK (ParcelStore.SetStatus db m st).2 := by
  intro r hr
  have hr2 : r ∈ db.rows.map (fun x =>
      if x.Number == m then { x with Status := st } else x) := hr
  obtain ⟨x, hx, rfl⟩ := List.mem_map.mp hr2
  by_cases h : (x.Number == m) = true
  · simp only [if_pos h]
    exact hst
  · simp only [if_neg h]
    exact hok x hx

/-- `SetAddress` preserves `StatusOK` (it never writes the status). -/
theorem statusOK_setAddress (db : DB) (m : Int) (a : String)
    (hok : StatusOK db) :
    StatusOK (ParcelStore.SetAddress db m a).2 := by
  intro r hr
  have hr2 : r ∈ db.rows.map (fun x =>
      if x.Number == m && x.Status == ParcelStatusRegistered then
        { x with Address := a }
      else x) := hr
  obtain ⟨x, hx, rfl⟩ := List.mem_map.mp hr2
  by_cases h : (x.Number == m && x.Status == ParcelStatusRegistered) = true
  · simp only [if_pos h]
    exact hok x hx
  · simp only [if_neg h]
    exact hok x hx

/-- `NextStatus` never writes an out-of-vocabulary status on a table
whose statuses are allowed, so `StatusOK` is preserved. -/
theorem statusOK_nextStatus (db : DB) (m : Int) (hok : StatusOK db) :
    StatusOK (ParcelService.NextStatus db m).2 := by
  cases hget : ParcelStore.Get db m with
  | error e =>
      have hdb : (ParcelService.NextStatus db m).2 = db := by
        unfold ParcelService.NextStatus
        rw [hget]
      rw [hdb]
      exact hok
  | ok p =>
      rcases hok p (get_mem db m p hget).1 with hs | hs | hs
      · have hdb : (ParcelService.NextStatus db m).2 =
            (ParcelStore.SetStatus db m ParcelStatusSent).2 := by
          simp [ParcelService.NextStatus, hget, hs, ParcelStatusRegistered,
        ParcelStatusSent, ParcelStatusDelivered]
        rw [hdb]
        exact statusOK_setStatus db m _ hok (Or.inr (Or.inl rfl))
      · have hdb : (ParcelService.NextStatus db m).2 =
            (ParcelStore.SetStatus db m ParcelStatusDelivered).2 := by
          simp [ParcelService.NextStatus, hget, hs, ParcelStatusRegistered,
        ParcelStatusSent, ParcelStatusDelivered]
        rw [hdb]
        exact statusOK_setStatus db m _ hok (Or.inr (Or.inr rfl))
      · have hdb : (ParcelService.NextStatus db m).2 = db := by
          simp [ParcelService.NextStatus, hget, hs, ParcelStatusRegistered,
        ParcelStatusSent, ParcelStatusDelivered]
        rw [hdb]
        exact hok

/-- Every service operation preserves `StatusOK`. -/
theorem statusOK_runOp (db : DB) (op : Op) (hok : StatusOK db) :
    StatusOK (runOp db op) := by
  cases op with
  | register fault c a now =>
      intro r hr
      have hcase : r ∈ db.rows ∨
          r = { Number := db.nextId, Client := c,
                Status := ParcelStatusRegistered, Address := a,
                CreatedAt := now } := by
        cases fault with
        | ok =>
            rcases List.mem_append.mp hr with h | h
            · exact Or.inl h
            · exact Or.inr (List.mem_singleton.mp h)
        | execFail => exact Or.inl hr
        | lastIdFail =>
            rcases List.mem_append.mp hr with h | h
            · exact Or.inl h
            · exact Or.inr (List.mem_singleton.mp h)
      rcases hcase with h | h
      · exact hok r h
      · rw [h]
        exact Or.inl rfl
  | nextStatus m => exact statusOK_nextStatus db m hok
  | changeAddress m a => exact statusOK_setAddress db m a hok
  | del m =>
      intro r hr
      exact hok r (List.mem_of_mem_filter hr)

/-- Both invariants hold for every table reachable from the fresh one. -/
theorem run_inv (ops : List Op) :
    (run DB.empty ops).WF ∧ StatusOK (run DB.empty ops) := by
  suffices h : ∀ db : DB, db.WF → StatusOK db →
      (run db ops).WF ∧ StatusOK (run db ops) by
    exact h DB.empty (by decide) (by decide)
  induction ops with
  | nil => exact fun db h1 h2 => ⟨h1, h2⟩
  | cons op rest ih =>
      intro db h1 h2
      exact ih (runOp db op) (wf_runOp db op h1) (statusOK_runOp db op h2)

/-- `Add` never changes what `Get` sees of an existing number. -/
theorem get_add_pres (fault : DbFault) (db : DB) (p0 : Parcel) (n : Int)
    (p : Parcel) (hp : ParcelStore.Get db n = .ok p) :
    ParcelStore.Get (ParcelStore.Add fault db p0).2.2 n = .ok p := by
  cases fault with
  | execFail => exact hp
  | ok =>
      unfold ParcelStore.Get ParcelStore.Add
      rw [List.find?_append, get_rows_eq db n p hp]
      rfl
  | lastIdFail =>
      unfold ParcelStore.Get ParcelStore.Add
      rw [List.find?_append, get_rows_eq db n p hp]
      rfl

/-- Across one service operation, the status of any parcel visible both
before and after evolves by at most one forward step of the chain. -/
theorem statusStep_runOp (db : DB) (op : Op) (hwf : db.WF) (hok : StatusOK db)
    (n : Int) (p q : Parcel)
    (hp : ParcelStore.Get db n = .ok p)
    (hq : ParcelStore.Get (runOp db op) n = .ok q) :
    StatusStep p.Status q.Status := by
  cases op with
  | register fault c a now =>
      have hdb : runOp db (Op.register fault c a now) =
          (ParcelStore.Add fault db
            { Number := 0, Client := c, Status := ParcelStatusRegistered,
              Address := a, CreatedAt := now }).2.2 :=
        register_db_eq fault db c a now
      rw [hdb, get_add_pres fault db _ n p hp] at hq
      cases hq
      exact Or.inl rfl
  | nextStatus m =>
      cases hget : ParcelStore.Get db m with
      | error e =>
          have hdb : runOp db (Op.nextStatus m) = db := by
            show (ParcelService.NextStatus db m).2 = db
            unfold ParcelService.NextStatus
            rw [hget]
          rw [hdb, hp] at hq
          cases hq
          exact Or.inl rfl
      | ok p2 =>
          have hpn := (get_mem db n p hp).2
          rcases hok p2 (get_mem db m p2 hget).1 with hs | hs | hs
          · have hdb : runOp db (Op.nextStatus m) =
                (ParcelStore.SetStatus db m ParcelStatusSent).2 := by
              show (ParcelService.NextStatus db m).2 = _
              simp [ParcelService.NextStatus, hget, hs, ParcelStatusRegistered,
        ParcelStatusSent, ParcelStatusDelivered]
            rw [hdb, get_setStatus_eq, hp] at hq
            by_cases hpm : p.Number = m
            · have hnm : n = m := hpn ▸ hpm
              have hpp2 : p2 = p := by
                rw [← hnm] at hget
                rw [hget] at hp
                exact (Except.ok.injEq _ _).mp hp
              simp only [hpm, beq_self_eq_true, if_true] at hq
              have hq2 := (Except.ok.injEq _ _).mp hq
              rw [← hq2]
              exact Or.inr (Or.inl ⟨hpp2 ▸ hs, rfl⟩)
            · simp only [beq_iff_eq, hpm, if_false] at hq
              cases (Except.ok.injEq _ _).mp hq
              exact Or.inl rfl
          · have hdb : runOp db (Op.nextStatus m) =
                (ParcelStore.SetStatus db m ParcelStatusDelivered).2 := by
              show (ParcelService.NextStatus db m).2 = _
              simp [ParcelService.NextStatus, hget, hs, ParcelStatusRegistered,
        ParcelStatusSent, ParcelStatusDelivered]
            rw [hdb, get_setStatus_eq, hp] at hq
            by_cases hpm : p.Number = m
            · have hnm : n = m := hpn ▸ hpm
              have hpp2 : p2 = p := by
                rw [← hnm] at hget
                rw [hget] at hp
                exact (Except.ok.injEq _ _).mp hp
              simp only [hpm, beq_self_eq_true, if_true] at hq
              have hq2 := (Except.ok.injEq _ _).mp hq
              rw [← hq2]
              exact Or.inr (Or.inr ⟨hpp2 ▸ hs, rfl⟩)
            · simp only [beq_iff_eq, hpm, if_false] at hq
              cases (Except.ok.injEq _ _).mp hq
              exact Or.inl rfl
          · have hdb : runOp db (Op.nextStatus m) = db := by
              show (ParcelService.NextStatus db m).2 = _
              simp [ParcelService.NextStatus, hget, hs, ParcelStatusRegistered,
        ParcelStatusSent, ParcelStatusDelivered]
            rw [hdb, hp] at hq
            cases hq
            exact Or.inl rfl
  | changeAddress m a =>
      have hdb : runOp db (Op.changeAddress m a) =
          (ParcelStore.SetAddress db m a).2 := rfl
      rw [hdb, get_setAddress_eq, hp] at hq
      by_cases hc : (p.Number == m && p.Status == ParcelStatusRegistered) = true
      · simp only [hc, if_true] at hq
        cases (Except.ok.injEq _ _).mp hq
        exact Or.inl rfl
      · simp only [hc, if_false] at hq
        cases (Except.ok.injEq _ _).mp hq
        exact Or.inl rfl
  | del m =>
      have hmemq := get_mem (runOp db (Op.del m)) n q hq
      have hqrows : q ∈ db.rows :=
        List.mem_of_mem_filter
          (show q ∈ db.rows.filter (fun r =>
            !(r.Number == m && r.Status == ParcelStatusRegistered)) from
            hmemq.1)
      have hqp : q = p :=
        find?_unique db.rows hwf.2.2 n p (get_rows_eq db n p hp) q hqrows
          hmemq.2
      rw [hqp]
      exact Or.inl rfl

/-- C5: starting from the fresh table, after any sequence of
service-level operations every stored parcel's status is one of
`registered`, `sent`, `delivered`; and across any further operation any
parcel visible before and after keeps its status or advances exactly one
step of the chain registered → sent → delivered — so `delivered` is
terminal and no regression or stage-skipping is possible. -/
theorem service_status_machine (ops : List Op) :
    StatusOK (run DB.empty ops) ∧
    ∀ op n p q,
      ParcelStore.Get (run DB.empty ops) n = .ok p →
      ParcelStore.Get (runOp (run DB.empty ops) op) n = .ok q →
      StatusStep p.Status q.Status := by
  obtain ⟨hwf, hok⟩ := run_inv ops
  exact ⟨hok, fun op n p q hp hq =>
    statusStep_runOp (run DB.empty ops) op hwf hok n p q hp hq⟩

/-- Witness for C5: registering one parcel then advancing it once, on
concrete inputs. -/
theorem service_status_machine_witness :
    StatusOK (run DB.empty [Op.register .ok 7 "a" "t"]) ∧
    StatusStep (Parcel.mk 1 7 "registered" "a" "t").Status
      (Parcel.mk 1 7 "sent" "a" "t").Status :=
  ⟨(service_status_machine [Op.register .ok 7 "a" "t"]).1,
    (service_status_machine [Op.register .ok 7 "a" "t"]).2 (Op.nextStatus 1) 1
      (Parcel.mk 1 7 "registered" "a" "t") (Parcel.mk 1 7 "sent" "a" "t")
      rfl rfl⟩
